import Mathlib

/-!
Verification of the school-assignment submission and grading portal.

The definitions below are a shallow embedding of the TypeScript source:

* `src/unnamed/part_000` (`SubmissionForm`): `validateFile`, `validateForm`,
  `handleSubmit` (duplicate check, storage upload, DB insert).
* `src/pages/admin.tsx` (`Admin`): `saveMark` (mark validation and upsert),
  `generatePDF` (empty-input guard, grouping by class/section, grade
  derivation).

JavaScript strings become `String`, numbers that are used as integers become
`Int`/`Nat`, timestamps become `Nat`, the relational tables become Lean lists
of records, and the fallible backend calls are modelled by explicit oracle
flags on a `Backend` record. `class` and `section` are Lean keywords, so the
corresponding record fields are named `cls` and `sec`.
-/

namespace Portal

/-- Row of the `submissions` table (interface `Submission` in admin.tsx). -/
structure Submission where
  id : String
  student_name : String
  cls : String
  sec : String
  filename : String
  uploaded_at : Nat
  file_path : String
  extension : String
  deriving DecidableEq, Repr

/-- Row of the `marks` table (interface `Mark` in admin.tsx). -/
structure Mark where
  student_name : String
  cls : String
  sec : String
  marks : Int
  submission_id : String
  created_at : Nat
  deriving DecidableEq, Repr

/-- The submitter form state (interface `FormData` in the submission form). -/
structure FormData where
  name : String
  cls : String
  sec : String
  deriving DecidableEq, Repr

/-- Letter-grade derivation, the ternary chain used both in `generatePDF`
(admin.tsx lines 332-336) and in the results table (admin.tsx line 792):
`marks >= 90 ? "A+" : marks >= 80 ? "A" : marks >= 70 ? "B" : marks >= 60 ? "C" : "F"`. -/
def grade (marks : Int) : String :=
  if marks ≥ 90 then "A+"
  else if marks ≥ 80 then "A"
  else if marks ≥ 70 then "B"
  else if marks ≥ 60 then "C"
  else "F"

/-- Toast kind used by `showToast` in admin.tsx. -/
inductive ToastType where
  | success
  | error
  deriving DecidableEq, Repr

/-- Truth value of a single hexadecimal-digit character test. -/
def isHexDigitChar (c : Char) : Bool :=
  c.isDigit || (decide ('a' ≤ c) && decide (c ≤ 'f')) ||
    (decide ('A' ≤ c) && decide (c ≤ 'F'))

/-- Validity of a character as a digit in the given radix (10 or 16). -/
def isRadixDigit (base : Nat) (c : Char) : Bool :=
  if base = 16 then isHexDigitChar c else c.isDigit

/-- Numeric value of a (hexa)decimal digit character. -/
def digitValue (c : Char) : Nat :=
  if c.isDigit then c.toNat - '0'.toNat
  else if 'a' ≤ c ∧ c ≤ 'f' then c.toNat - 'a'.toNat + 10
  else if 'A' ≤ c ∧ c ≤ 'F' then c.toNat - 'A'.toNat + 10
  else 0

/-- JavaScript `parseInt(s)` with no radix argument, as called in `saveMark`
(admin.tsx line 210): skip leading whitespace, read an optional sign, switch
to radix 16 after a `0x`/`0X` prefix, take the longest prefix of radix
digits, and return NaN (here `none`) when that prefix is empty. Trailing
garbage is ignored, so `parseInt("72.5") = 72`. -/
def jsParseInt (s : String) : Option Int :=
  let cs := s.data.dropWhile fun c => c.isWhitespace
  let signAndRest : Int × List Char :=
    match cs with
    | '-' :: rest => (-1, rest)
    | '+' :: rest => (1, rest)
    | _ => (1, cs)
  let baseAndRest : Nat × List Char :=
    match signAndRest.2 with
    | '0' :: 'x' :: rest => (16, rest)
    | '0' :: 'X' :: rest => (16, rest)
    | rest => (10, rest)
  let ds := baseAndRest.2.takeWhile (isRadixDigit baseAndRest.1)
  if ds.isEmpty then none
  else
    some (signAndRest.1 *
      Int.ofNat (ds.foldl (fun acc c => acc * baseAndRest.1 + digitValue c) 0))

/-- The `marks` row built by `saveMark` from the selected submission
(admin.tsx lines 219-226). -/
def markOf (sub : Submission) (score : Int) (now : Nat) : Mark :=
  { student_name := sub.student_name
    cls := sub.cls
    sec := sub.sec
    marks := score
    submission_id := sub.id
    created_at := now }

/-- The backend `upsert(..., onConflict: "submission_id")` call of `saveMark`
(admin.tsx lines 216-230): rows whose `submission_id` equals that of the new row
are replaced in place; otherwise the new row is appended. -/
def upsertMark (store : List Mark) (m : Mark) : List Mark :=
  if store.any (fun r => r.submission_id == m.submission_id) then
    store.map fun r => if r.submission_id == m.submission_id then m else r
  else
    store ++ [m]

/-- Lookup of the mark of a submission, as done by
`marks.find(m => m.submission_id === submission.id)` (admin.tsx lines 201
and 713). -/
def getMark (store : List Mark) (id : String) : Option Mark :=
  store.find? fun r => r.submission_id == id

/-- Number of mark rows recorded for a given submission id. -/
def countFor (store : List Mark) (id : String) : Nat :=
  (store.filter fun r => r.submission_id == id).length

/-- The Grading Ledger `setMark` operation: the write performed by a
successful `saveMark` for the selected submission. -/
def setMark (store : List Mark) (sub : Submission) (score : Int)
    (now : Nat) : List Mark :=
  upsertMark store (markOf sub score now)

/-- Outcome of one `saveMark` click (admin.tsx lines 206-241): the resulting
marks store, the toast shown to the user (if any), and the number of write
calls issued to the backend. -/
structure SaveResult where
  store : List Mark
  toast : Option (String × ToastType)
  writes : Nat
  deriving DecidableEq, Repr

/-- The `saveMark` handler of admin.tsx (lines 206-241): silent early return
when no submission is selected or the input string is empty; a validation
toast and no write when `parseInt` gives NaN or a value outside [0,100];
otherwise an upsert keyed by `submission_id` and a success toast. -/
def saveMark : Option Submission → String → List Mark → Nat → SaveResult
  | none, _, store, _ => ⟨store, none, 0⟩
  | some sub, markInput, store, now =>
    if markInput = "" then ⟨store, none, 0⟩
    else
      match jsParseInt markInput with
      | none => ⟨store, some ("Please enter marks between 0 and 100.", ToastType.error), 0⟩
      | some v =>
        if v < 0 ∨ v > 100 then
          ⟨store, some ("Please enter marks between 0 and 100.", ToastType.error), 0⟩
        else
          ⟨upsertMark store (markOf sub v now),
           some ("Marks " ++ toString v ++ " saved for " ++ sub.student_name,
             ToastType.success), 1⟩

/-- A concrete submission used to instantiate witness theorems. -/
def sampleSubmission : Submission :=
  { id := "sub-1"
    student_name := "Asha"
    cls := "10th"
    sec := "A"
    filename := "hw1.py"
    uploaded_at := 0
    file_path := "10th/A/Asha_10th_A_hw1.py"
    extension := "py" }

/-- Spec-side reading of "an integer in the closed range [0,100]": the whole
input string is the decimal representation (optional sign, then digits and
nothing else) of an integer lying in [0,100]. -/
def natOfDigits (ds : List Char) : Nat :=
  ds.foldl (fun acc c => acc * 10 + (c.toNat - '0'.toNat)) 0

/-- Strict decimal-integer reading of a whole string, `none` when any
character is not part of a plain signed decimal numeral. -/
def decimalInt (s : String) : Option Int :=
  match s.data with
  | [] => none
  | '-' :: ds =>
    if ds ≠ [] ∧ ds.all Char.isDigit then some (-(natOfDigits ds : Int)) else none
  | '+' :: ds =>
    if ds ≠ [] ∧ ds.all Char.isDigit then some (natOfDigits ds : Int) else none
  | ds =>
    if ds.all Char.isDigit then some (natOfDigits ds : Int) else none

/-- Spec-side predicate: the input string denotes an integer in [0,100]. -/
def specIntegerInRange (s : String) : Bool :=
  match decimalInt s with
  | some v => decide (0 ≤ v ∧ v ≤ 100)
  | none => false

/-- JavaScript `s.trim()`: strip leading and trailing whitespace. -/
def jsTrim (s : String) : String :=
  ⟨((s.data.dropWhile Char.isWhitespace).reverse.dropWhile
    Char.isWhitespace).reverse⟩

/-- JavaScript `s.endsWith(t)`. -/
def jsEndsWith (s t : String) : Bool :=
  t.data.isSuffixOf s.data

/-- JavaScript `s.toLowerCase()` (ASCII is all that reaches it here). -/
def jsToLower (s : String) : String :=
  ⟨s.data.map Char.toLower⟩

/-- JavaScript `s.split(c)` for a single-character separator, on character
lists. -/
def splitOnChar (c : Char) : List Char → List (List Char)
  | [] => [[]]
  | a :: rest =>
    let r := splitOnChar c rest
    if a = c then [] :: r
    else
      match r with
      | [] => [[a]]
      | g :: gs => (a :: g) :: gs

/-- File-intake check `validateFile` of the submission form (part_000 lines
44-60): the `.py` extension check runs first and returns early; only then is
the strict 5 MiB size ceiling enforced. The second component is the
`errors.file` message set on rejection. -/
def validateFile (name : String) (size : Nat) : Bool × Option String :=
  if ¬ jsEndsWith name ".py" then
    (false, some "Only Python (.py) files are allowed")
  else if size > 5 * 1024 * 1024 then
    (false, some "File size must be less than 5MB")
  else
    (true, none)

/-- Per-field error object built by `validateForm` (part_000 lines 107-115). -/
structure FormErrors where
  name : Option String
  cls : Option String
  sec : Option String
  file : Option String
  deriving DecidableEq, Repr

/-- Number of keys present in the errors object (`Object.keys(...).length`). -/
def FormErrors.count (e : FormErrors) : Nat :=
  (if e.name.isSome then 1 else 0) + (if e.cls.isSome then 1 else 0) +
    (if e.sec.isSome then 1 else 0) + (if e.file.isSome then 1 else 0)

/-- The `validateForm` check of the submission form (part_000 lines
107-115): each required field is checked for trimmed non-emptiness, a file
must be attached, all messages are collected into one errors object, and the
form is valid exactly when that object has no keys. -/
def validateForm (form : FormData) (uploadedFile : Bool) : Bool × FormErrors :=
  let e : FormErrors :=
    { name := if jsTrim form.name = "" then some "Name is required" else none
      cls := if jsTrim form.cls = "" then some "Class is required" else none
      sec := if jsTrim form.sec = "" then some "Section is required" else none
      file := if uploadedFile = false then some "Python file is required" else none }
  (e.count == 0, e)

/-- The class labels offered by the form dropdown (part_000 line 322). -/
def permittedClasses : List String := ["6th", "7th", "8th", "9th", "10th"]

/-- The section labels offered by the form dropdown (part_000 line 357). -/
def permittedSections : List String := ["A", "B", "C"]

/-- An uploaded file as held in the form state; `handleSubmit` only reads
its name (the byte content is irrelevant to the control flow modelled here). -/
structure UploadedFile where
  name : String
  deriving DecidableEq, Repr

/-- Oracle describing the backend behavior during one submission attempt:
the current `submissions` table, whether the duplicate-existence query
fails, the storage upload error message (if the upload fails), and whether
the DB insert fails. -/
structure Backend where
  db : List Submission
  queryFails : Bool
  uploadError : Option String
  insertFails : Bool
  deriving DecidableEq, Repr

/-- Observable outcome of one `handleSubmit` run (part_000 lines 128-220):
the error or success message shown, the number of storage upload calls and
DB insert calls issued, and the resulting `submissions` table. -/
structure SubmitResult where
  errorMessage : Option String
  successMessage : Option String
  uploadCalls : Nat
  insertCalls : Nat
  db : List Submission
  deriving DecidableEq, Repr

/-- Rows returned by the duplicate-existence query (part_000 lines 146-152):
equality on all four of student name, class, section and filename. -/
def duplicateRows (db : List Submission) (name cls sec filename : String) :
    List Submission :=
  db.filter fun s =>
    s.student_name == name && s.cls == cls && s.sec == sec &&
      s.filename == filename

/-- JavaScript `msg.includes(pat)` (part_000 line 178): some suffix of the
message starts with the pattern. -/
def includesSubstring (msg pat : String) : Bool :=
  msg.data.tails.any fun t => pat.data.isPrefixOf t

/-- Extension derivation `fileName.split(".").pop()?.toLowerCase()`
(part_000 line 139). -/
def extensionOf (fileName : String) : String :=
  jsToLower ⟨((splitOnChar '.' fileName.data).getLast?).getD []⟩

/-- Storage path `${cls}/${section}/${name}_${cls}_${section}_${fileName}`
(part_000 lines 142-143). -/
def storagePathOf (name cls sec fileName : String) : String :=
  cls ++ "/" ++ sec ++ "/" ++
    (name ++ "_" ++ cls ++ "_" ++ sec ++ "_" ++ fileName)

/-- The `handleSubmit` flow of the submission form (part_000 lines 128-220).
The source guards with `if (!validateForm() || !uploadedFile) return`; when
no file is attached `validateForm` necessarily fails, so the two guards
collapse to the match-then-check shape below. After the guard: a failing
duplicate query stops with "Failed to validate submission. Try again."; a
non-empty duplicate result stops with the fixed contact-your-teacher
message; otherwise the storage upload and then the DB insert run, each
stopping with its own message on failure. -/
def handleSubmit (b : Backend) (form : FormData)
    (uploaded : Option UploadedFile) (newId : String) (now : Nat) :
    SubmitResult :=
  match uploaded with
  | none => ⟨none, none, 0, 0, b.db⟩
  | some file =>
    if (validateForm form true).1 = false then ⟨none, none, 0, 0, b.db⟩
    else if b.queryFails then
      ⟨some "Failed to validate submission. Try again.", none, 0, 0, b.db⟩
    else if (duplicateRows b.db form.name form.cls form.sec file.name).length > 0 then
      ⟨some "File already exists. Contact your teacher for resubmission.",
        none, 0, 0, b.db⟩
    else
      match b.uploadError with
      | some msg =>
        ⟨some (if includesSubstring msg "exists" then
            "File already exists. Contact your teacher for resubmission."
          else "Upload failed. Please try again."), none, 1, 0, b.db⟩
      | none =>
        if b.insertFails then
          ⟨some "Upload succeeded, but saving submission failed.", none, 1, 1, b.db⟩
        else
          ⟨none, some "✅ Submission successful!", 1, 1,
            b.db ++ [Submission.mk newId form.name form.cls form.sec file.name
              now (storagePathOf form.name form.cls form.sec file.name)
              (extensionOf file.name)]⟩

/-- Row of the rendered report: student name, score and derived grade (the
columns written per mark in admin.tsx lines 338-341). -/
structure ReportRow where
  student_name : String
  marks : Int
  grade : String
  deriving DecidableEq, Repr

/-- Composite group key `"Class {class} - Section {section}"` (admin.tsx
line 295). -/
def groupKey (m : Mark) : String :=
  "Class " ++ m.cls ++ " - Section " ++ m.sec

/-- Insertion of one mark into the grouping accumulator: pushed at the end
of the array of an existing group, else recorded under a new key appended at the
end. JS objects enumerate non-index string keys in insertion order (and
every key here starts with "Class ", so none is an array index), which this
association list models by appending new keys. -/
def insertGrouped (acc : List (String × List Mark)) (k : String) (m : Mark) :
    List (String × List Mark) :=
  match acc with
  | [] => [(k, [m])]
  | (q, g) :: rest =>
    if q = k then (q, g ++ [m]) :: rest else (q, g) :: insertGrouped rest k m

/-- The `reduce` grouping of `generatePDF` (admin.tsx lines 294-299) read
back with `Object.entries` (line 301). -/
def groupMarks (ms : List Mark) : List (String × List Mark) :=
  ms.foldl (fun acc m => insertGrouped acc (groupKey m) m) []

/-- First-encounter deduplication of a key sequence: the order in which a
JS object keyed by these strings acquires its keys. -/
def dedupFirst (l : List String) : List String :=
  l.foldl (fun acc k => if k ∈ acc then acc else acc ++ [k]) []

/-- Document built by `generatePDF` from a non-empty filtered mark list:
groups in first-encountered order, each with its rendered rows. -/
def reportDoc (ms : List Mark) : List (String × List ReportRow) :=
  (groupMarks ms).map fun p =>
    (p.1, p.2.map fun m => ⟨m.student_name, m.marks, grade m.marks⟩)

/-- The `generatePDF` handler (admin.tsx lines 269-372): an empty filtered
mark list produces only the error toast and no document; otherwise the
document is built, saved, and announced with a success toast. -/
def generatePDF (filteredMarks : List Mark) :
    Option (List (String × List ReportRow)) × (String × ToastType) :=
  if filteredMarks.length = 0 then
    (none, ("No results to download for selected class/section.", ToastType.error))
  else
    (some (reportDoc filteredMarks),
      ("Student results have been downloaded as PDF.", ToastType.success))

/-- C1: grade derivation is a pure function of the integer score with
inclusive lower bounds (≥90 "A+", 80-89 "A", 70-79 "B", 60-69 "C", <60 "F"),
and in particular 89 → "A", 90 → "A+", 59 → "F", 60 → "C", 69 → "C",
70 → "B". -/
theorem grade_bands (s : Int) :
    (90 ≤ s → grade s = "A+") ∧
    (80 ≤ s ∧ s < 90 → grade s = "A") ∧
    (70 ≤ s ∧ s < 80 → grade s = "B") ∧
    (60 ≤ s ∧ s < 70 → grade s = "C") ∧
    (s < 60 → grade s = "F") ∧
    grade 89 = "A" ∧ grade 90 = "A+" ∧ grade 59 = "F" ∧
    grade 60 = "C" ∧ grade 69 = "C" ∧ grade 70 = "B" := by
  refine ⟨?_, ?_, ?_, ?_, ?_, by decide, by decide, by decide, by decide,
    by decide, by decide⟩ <;>
    intro h <;> unfold grade <;>
    repeat first
      | rw [if_pos (by omega)]
      | rw [if_neg (by omega)]

/-- Concrete instantiation of `grade_bands`. -/
theorem grade_bands_witness : grade 95 = "A+" :=
  (grade_bands 95).1 (by decide)

theorem find?_map_replace (m : Mark) (store : List Mark)
    (h : store.any (fun r => r.submission_id == m.submission_id) = true) :
    (store.map fun r => if r.submission_id == m.submission_id then m else r).find?
      (fun r => r.submission_id == m.submission_id) = some m := by
  induction store with
  | nil => simp at h
  | cons r rest ih =>
    simp only [List.map_cons]
    by_cases hr : (r.submission_id == m.submission_id) = true
    · rw [if_pos hr]
      exact List.find?_cons_of_pos _ (by simp)
    · rw [if_neg hr]
      rw [List.find?_cons_of_neg _ (by simpa using hr)]
      apply ih
      simp only [List.any_cons, Bool.or_eq_true] at h
      tauto

theorem find?_append_self (m : Mark) (store : List Mark)
    (h : store.any (fun r => r.submission_id == m.submission_id) = false) :
    (store ++ [m]).find? (fun r => r.submission_id == m.submission_id) = some m := by
  induction store with
  | nil => exact List.find?_cons_of_pos _ (by simp)
  | cons r rest ih =>
    simp only [List.any_cons, Bool.or_eq_false_iff] at h
    rw [List.cons_append, List.find?_cons_of_neg _ (by simpa using h.1)]
    exact ih h.2

theorem getMark_upsertMark (store : List Mark) (m : Mark) :
    getMark (upsertMark store m) m.submission_id = some m := by
  unfold getMark upsertMark
  by_cases h : store.any (fun r => r.submission_id == m.submission_id) = true
  · rw [if_pos h]
    exact find?_map_replace m store h
  · rw [if_neg h]
    exact find?_append_self m store (by simpa using h)

theorem countFor_map_replace (m : Mark) (store : List Mark) :
    countFor (store.map fun r => if r.submission_id == m.submission_id then m else r)
      m.submission_id = countFor store m.submission_id := by
  unfold countFor
  rw [← List.countP_eq_length_filter, ← List.countP_eq_length_filter,
    List.countP_map]
  apply List.countP_congr
  intro r _
  simp only [Function.comp_apply]
  by_cases hr : (r.submission_id == m.submission_id) = true
  · rw [if_pos hr, hr]
    simp
  · rw [if_neg hr]

theorem one_le_countFor_of_any (store : List Mark) (id : String)
    (h : store.any (fun r => r.submission_id == id) = true) :
    1 ≤ countFor store id := by
  rcases List.any_eq_true.mp h with ⟨r, hmem, hr⟩
  have hf : r ∈ store.filter fun r => r.submission_id == id :=
    List.mem_filter.mpr ⟨hmem, hr⟩
  have := List.length_pos.mpr (List.ne_nil_of_mem hf)
  unfold countFor
  omega

theorem countFor_eq_zero_of_not_any (store : List Mark) (id : String)
    (h : store.any (fun r => r.submission_id == id) = false) :
    countFor store id = 0 := by
  unfold countFor
  rw [List.length_eq_zero, List.filter_eq_nil_iff]
  intro a ha
  exact (List.any_eq_false.mp h) a ha

theorem countFor_upsertMark (store : List Mark) (m : Mark)
    (h : countFor store m.submission_id ≤ 1) :
    countFor (upsertMark store m) m.submission_id = 1 := by
  unfold upsertMark
  by_cases hany : store.any (fun r => r.submission_id == m.submission_id) = true
  · rw [if_pos hany]
    rw [countFor_map_replace]
    have := one_le_countFor_of_any store m.submission_id hany
    omega
  · rw [if_neg hany]
    have h0 := countFor_eq_zero_of_not_any store m.submission_id (by simpa using hany)
    unfold countFor at *
    rw [List.filter_append, List.length_append]
    simp [h0]

/-- C2: `setMark` is an upsert keyed by submission id: after
`setMark(id, 72)`, `getMark(id)` returns score 72; after a subsequent
`setMark(id, 90)`, `getMark(id)` returns 90; and whenever the store starts
with at most one mark row for the id, exactly one row for it exists after
each write (last-write-wins, no duplicate records). -/
theorem setMark_upsert_roundtrip (store : List Mark) (sub : Submission)
    (t1 t2 : Nat) (h : countFor store sub.id ≤ 1) :
    (getMark (setMark store sub 72 t1) sub.id).map Mark.marks = some 72 ∧
    (getMark (setMark (setMark store sub 72 t1) sub 90 t2) sub.id).map
      Mark.marks = some 90 ∧
    countFor (setMark store sub 72 t1) sub.id = 1 ∧
    countFor (setMark (setMark store sub 72 t1) sub 90 t2) sub.id = 1 := by
  have h72 := getMark_upsertMark store (markOf sub 72 t1)
  have hc72 := countFor_upsertMark store (markOf sub 72 t1) h
  have hc90 := countFor_upsertMark (setMark store sub 72 t1) (markOf sub 90 t2)
    (by simpa [setMark] using hc72.le)
  have h90 := getMark_upsertMark (setMark store sub 72 t1) (markOf sub 90 t2)
  refine ⟨?_, ?_, by simpa [setMark] using hc72, by simpa [setMark] using hc90⟩
  · rw [setMark, show sub.id = (markOf sub 72 t1).submission_id from rfl, h72]
    rfl
  · rw [setMark, setMark,
      show sub.id = (markOf sub 90 t2).submission_id from rfl]
    rw [setMark] at h90
    rw [h90]
    rfl

/-- Concrete instantiation of `setMark_upsert_roundtrip` on an empty store. -/
theorem setMark_upsert_roundtrip_witness :
    countFor [] sampleSubmission.id ≤ 1 ∧
    (getMark (setMark [] sampleSubmission 72 0) sampleSubmission.id).map
      Mark.marks = some 72 ∧
    countFor (setMark (setMark [] sampleSubmission 72 0) sampleSubmission 90 1)
      sampleSubmission.id = 1 :=
  ⟨by decide,
   (setMark_upsert_roundtrip [] sampleSubmission 0 1 (by decide)).1,
   (setMark_upsert_roundtrip [] sampleSubmission 0 1 (by decide)).2.2.2⟩

/-- C3 fails as stated: the input string "72.5" is not an integer in [0,100],
yet `saveMark` accepts it — JavaScript `parseInt` truncates it to 72, which
passes the range check and is written, with a success toast and no
validation error. -/
theorem saveMark_fraction_counterexample :
    specIntegerInRange "72.5" = false ∧
    (saveMark (some sampleSubmission) "72.5" [] 0).writes = 1 ∧
    (saveMark (some sampleSubmission) "72.5" [] 0).store =
      [markOf sampleSubmission 72 0] ∧
    (saveMark (some sampleSubmission) "72.5" [] 0).toast =
      some ("Marks 72 saved for Asha", ToastType.success) := by
  refine ⟨by decide, by decide, by decide, by decide⟩

/-- C3 amended: `saveMark` validates the `parseInt` of the input: when
`parseInt` gives NaN or a value outside [0,100], it shows the validation
toast naming the 0-100 range and performs no write; when `parseInt` gives a
value in [0,100], exactly that integer is written (so only integers in
[0,100] are ever written, but fractional inputs such as "72.5" are truncated
and accepted rather than rejected). -/
theorem saveMark_validation (sub : Submission) (input : String)
    (store : List Mark) (now : Nat) (hne : input ≠ "") :
    (jsParseInt input = none →
      saveMark (some sub) input store now =
        ⟨store, some ("Please enter marks between 0 and 100.", ToastType.error), 0⟩) ∧
    (∀ v, jsParseInt input = some v → (v < 0 ∨ v > 100) →
      saveMark (some sub) input store now =
        ⟨store, some ("Please enter marks between 0 and 100.", ToastType.error), 0⟩) ∧
    (∀ v, jsParseInt input = some v → 0 ≤ v → v ≤ 100 →
      saveMark (some sub) input store now =
        ⟨upsertMark store (markOf sub v now),
         some ("Marks " ++ toString v ++ " saved for " ++ sub.student_name,
           ToastType.success), 1⟩) := by
  simp only [saveMark]
  rw [if_neg hne]
  refine ⟨?_, ?_, ?_⟩
  · intro h
    rw [h]
  · intro v h hv
    simp only [h]
    rw [if_pos hv]
  · intro v h h0 h100
    simp only [h]
    rw [if_neg (show ¬(v < 0 ∨ v > 100) by omega)]

/-- Concrete instantiation of `saveMark_validation`: the out-of-range input
"101" is rejected without a write. -/
theorem saveMark_validation_witness :
    saveMark (some sampleSubmission) "101" [] 0 =
      ⟨[], some ("Please enter marks between 0 and 100.", ToastType.error), 0⟩ :=
  (saveMark_validation sampleSubmission "101" [] 0 (by decide)).2.1 101
    (by decide) (by decide)

/-- C10: saving with no selected submission or with an empty mark-input
string is a silent no-op: the store is unchanged, no write is issued, and no
toast (success or error) is shown. -/
theorem saveMark_silent_noop (store : List Mark) (input : String) (now : Nat)
    (sub : Submission) :
    saveMark none input store now = ⟨store, none, 0⟩ ∧
    saveMark (some sub) "" store now = ⟨store, none, 0⟩ := by
  constructor
  · rfl
  · simp [saveMark]

/-- C7 fails as stated: an oversized file whose name does not end in `.py`
is rejected, but with the extension error message, not the size error — the
extension check runs first and returns early. -/
theorem validateFile_oversized_counterexample :
    5 * 1024 * 1024 + 1 > 5 * 1024 * 1024 ∧
    (validateFile "notes.txt" (5 * 1024 * 1024 + 1)).1 = false ∧
    (validateFile "notes.txt" (5 * 1024 * 1024 + 1)).2 ≠
      some "File size must be less than 5MB" ∧
    (validateFile "notes.txt" (5 * 1024 * 1024 + 1)).2 =
      some "Only Python (.py) files are allowed" := by
  refine ⟨by omega, by decide, by decide, by decide⟩

/-- C7 amended: every file exceeding 5 MiB is rejected; when its name ends
in the accepted `.py` extension the rejection carries the size-field error,
but an oversized file with any other extension is rejected with the
extension error instead (the extension check runs first). Files of exactly
5 MiB or less never trigger the size rejection. -/
theorem validateFile_size_policy (name : String) (size : Nat) :
    (size > 5 * 1024 * 1024 → (validateFile name size).1 = false) ∧
    (size > 5 * 1024 * 1024 → jsEndsWith name ".py" = true →
      validateFile name size = (false, some "File size must be less than 5MB")) ∧
    (size ≤ 5 * 1024 * 1024 →
      (validateFile name size).2 ≠ some "File size must be less than 5MB") := by
  unfold validateFile
  by_cases hend : jsEndsWith name ".py" = true
  · rw [if_neg (not_not_intro hend)]
    refine ⟨?_, ?_, ?_⟩
    · intro hs
      rw [if_pos hs]
    · intro hs _
      rw [if_pos hs]
    · intro hs
      rw [if_neg (by omega)]
      simp
  · rw [if_pos hend]
    refine ⟨fun _ => rfl, fun _ h => absurd h hend, fun _ => by decide⟩

/-- Concrete instantiation of `validateFile_size_policy`: an oversized
Python file is rejected with the size error. -/
theorem validateFile_size_policy_witness :
    validateFile "hw1.py" (5 * 1024 * 1024 + 1) =
      (false, some "File size must be less than 5MB") :=
  (validateFile_size_policy "hw1.py" (5 * 1024 * 1024 + 1)).2.1 (by omega)
    (by decide)

/-- C9 fails as stated: `validateForm` never consults the permitted
enumerations — a non-empty class label outside the dropdown options (here
"11th") passes validation with no error recorded; only the UI dropdowns
restrict the values. -/
theorem validateForm_enumeration_counterexample :
    permittedClasses.contains "11th" = false ∧
    (validateForm { name := "Asha", cls := "11th", sec := "A" } true).1 = true ∧
    (validateForm { name := "Asha", cls := "11th", sec := "A" } true).2 =
      ⟨none, none, none, none⟩ := by
  refine ⟨by decide, by decide, by decide⟩

/-- C9 amended: `validateForm` is pure and rejects exactly when a required
field is empty after trimming or no file is attached; it returns a
structured errors object holding, simultaneously, one fixed message per
violated field. Membership in the permitted class/section enumerations is
not checked by the validator (the dropdowns enforce it upstream). -/
theorem validateForm_fields (form : FormData) (uploadedFile : Bool) :
    ((validateForm form uploadedFile).1 = true ↔
      jsTrim form.name ≠ "" ∧ jsTrim form.cls ≠ "" ∧ jsTrim form.sec ≠ "" ∧
        uploadedFile = true) ∧
    ((validateForm form uploadedFile).2.name = some "Name is required" ↔
      jsTrim form.name = "") ∧
    ((validateForm form uploadedFile).2.cls = some "Class is required" ↔
      jsTrim form.cls = "") ∧
    ((validateForm form uploadedFile).2.sec = some "Section is required" ↔
      jsTrim form.sec = "") ∧
    ((validateForm form uploadedFile).2.file = some "Python file is required" ↔
      uploadedFile = false) := by
  unfold validateForm FormErrors.count
  by_cases h1 : jsTrim form.name = "" <;> by_cases h2 : jsTrim form.cls = "" <;>
    by_cases h3 : jsTrim form.sec = "" <;> by_cases h4 : uploadedFile = false <;>
    simp_all

/-- Concrete instantiation of `validateForm_fields`: an empty name field
yields its message. -/
theorem validateForm_fields_witness :
    (validateForm { name := "", cls := "10th", sec := "A" } true).2.name =
      some "Name is required" :=
  (validateForm_fields { name := "", cls := "10th", sec := "A" } true).2.1.mpr
    (by decide)

/-- C4: when the duplicate-existence query succeeds and some stored
submission matches the candidate on all four of student name, class,
section and filename, `handleSubmit` stops with the fixed
contact-your-teacher message, issues no storage upload and no DB insert,
and leaves the table unchanged. -/
theorem handleSubmit_duplicate_rejected (b : Backend) (form : FormData)
    (file : UploadedFile) (newId : String) (now : Nat)
    (hvalid : (validateForm form true).1 = true)
    (hq : b.queryFails = false)
    (hdup : ∃ s ∈ b.db, s.student_name = form.name ∧ s.cls = form.cls ∧
      s.sec = form.sec ∧ s.filename = file.name) :
    handleSubmit b form (some file) newId now =
      ⟨some "File already exists. Contact your teacher for resubmission.",
        none, 0, 0, b.db⟩ := by
  obtain ⟨s, hmem, h1, h2, h3, h4⟩ := hdup
  have hlen :
      0 < (duplicateRows b.db form.name form.cls form.sec file.name).length := by
    apply List.length_pos.mpr
    apply List.ne_nil_of_mem (a := s)
    apply List.mem_filter.mpr
    exact ⟨hmem, by simp [h1, h2, h3, h4]⟩
  simp only [handleSubmit]
  rw [if_neg (by simp [hvalid]), if_neg (by simp [hq]), if_pos hlen]

/-- Concrete instantiation of `handleSubmit_duplicate_rejected` with the
stored tuple ("Asha", "10th", "A", "hw1.py"). -/
theorem handleSubmit_duplicate_rejected_witness :
    handleSubmit ⟨[sampleSubmission], false, none, false⟩
      { name := "Asha", cls := "10th", sec := "A" } (some ⟨"hw1.py"⟩)
      "new-id" 5 =
      ⟨some "File already exists. Contact your teacher for resubmission.",
        none, 0, 0, [sampleSubmission]⟩ :=
  handleSubmit_duplicate_rejected _ _ _ _ _ (by decide) rfl
    ⟨sampleSubmission, by decide, rfl, rfl, rfl, rfl⟩

/-- C5: when the duplicate-existence query itself fails, `handleSubmit`
stops with the distinct "Failed to validate submission. Try again." message
— different from the duplicate-found message — and neither uploads nor
inserts anything. -/
theorem handleSubmit_query_failure (b : Backend) (form : FormData)
    (file : UploadedFile) (newId : String) (now : Nat)
    (hvalid : (validateForm form true).1 = true)
    (hq : b.queryFails = true) :
    handleSubmit b form (some file) newId now =
      ⟨some "Failed to validate submission. Try again.", none, 0, 0, b.db⟩ ∧
    (handleSubmit b form (some file) newId now).errorMessage ≠
      some "File already exists. Contact your teacher for resubmission." := by
  have hmain : handleSubmit b form (some file) newId now =
      ⟨some "Failed to validate submission. Try again.", none, 0, 0, b.db⟩ := by
    simp only [handleSubmit]
    rw [if_neg (by simp [hvalid]), if_pos hq]
  refine ⟨hmain, ?_⟩
  rw [hmain]
  intro hcontra
  exact absurd (Option.some.inj hcontra) (by decide)

/-- Concrete instantiation of `handleSubmit_query_failure`. -/
theorem handleSubmit_query_failure_witness :
    handleSubmit ⟨[sampleSubmission], true, none, false⟩
      { name := "Asha", cls := "10th", sec := "A" } (some ⟨"hw1.py"⟩)
      "new-id" 5 =
      ⟨some "Failed to validate submission. Try again.", none, 0, 0,
        [sampleSubmission]⟩ :=
  (handleSubmit_query_failure ⟨[sampleSubmission], true, none, false⟩
    { name := "Asha", cls := "10th", sec := "A" } ⟨"hw1.py"⟩ "new-id" 5
    (by decide) rfl).1

/-- C6: report generation on an empty mark list produces no document and
signals "nothing to export" via the error toast; a non-empty mark list
yields a document and the success toast. -/
theorem generatePDF_empty_guard (ms : List Mark) :
    generatePDF [] = (none,
      ("No results to download for selected class/section.", ToastType.error)) ∧
    (ms ≠ [] → (generatePDF ms).1 = some (reportDoc ms) ∧
      (generatePDF ms).2 =
        ("Student results have been downloaded as PDF.", ToastType.success)) := by
  constructor
  · rfl
  · intro h
    unfold generatePDF
    rw [if_neg (by simpa [List.length_eq_zero] using h)]
    exact ⟨rfl, rfl⟩

/-- Concrete instantiation of `generatePDF_empty_guard` on a one-mark
list. -/
theorem generatePDF_empty_guard_witness :
    (generatePDF [markOf sampleSubmission 72 0]).1 =
      some (reportDoc [markOf sampleSubmission 72 0]) :=
  ((generatePDF_empty_guard [markOf sampleSubmission 72 0]).2 (by decide)).1

theorem dedupFirst_append_one (l : List String) (k : String) :
    dedupFirst (l ++ [k]) =
      if k ∈ dedupFirst l then dedupFirst l else dedupFirst l ++ [k] := by
  unfold dedupFirst
  rw [List.foldl_append]
  rfl

theorem mem_dedupFirst (l : List String) : ∀ k, k ∈ dedupFirst l ↔ k ∈ l := by
  induction l using List.reverseRecOn with
  | nil => intro k; simp [dedupFirst]
  | append_singleton l a ih =>
    intro k
    rw [dedupFirst_append_one]
    by_cases h : a ∈ dedupFirst l
    · rw [if_pos h]
      have ha : a ∈ l := (ih a).mp h
      simp only [List.mem_append, List.mem_singleton, ih k]
      constructor
      · exact Or.inl
      · rintro (hk | rfl)
        · exact hk
        · exact ha
    · rw [if_neg h]
      simp [List.mem_append, ih]

theorem nodup_dedupFirst (l : List String) : (dedupFirst l).Nodup := by
  induction l using List.reverseRecOn with
  | nil => exact List.nodup_nil
  | append_singleton l a ih =>
    rw [dedupFirst_append_one]
    by_cases h : a ∈ dedupFirst l
    · rwa [if_pos h]
    · rw [if_neg h]
      rw [List.nodup_append]
      exact ⟨ih, List.nodup_singleton a, by simpa [List.disjoint_singleton] using h⟩

theorem insertGrouped_of_not_mem (ps : List (String × List Mark)) (k : String)
    (m : Mark) (h : k ∉ ps.map Prod.fst) :
    insertGrouped ps k m = ps ++ [(k, [m])] := by
  induction ps with
  | nil => rfl
  | cons p rest ih =>
    obtain ⟨q, g⟩ := p
    simp only [List.map_cons, List.mem_cons] at h
    push_neg at h
    obtain ⟨h1, h2⟩ := h
    simp only [insertGrouped]
    rw [if_neg (fun hq => h1 hq.symm), ih h2, List.cons_append]

theorem insertGrouped_map_keys (ks : List String) (f : String → List Mark)
    (k : String) (m : Mark) (hnd : ks.Nodup) (hk : k ∈ ks) :
    insertGrouped (ks.map fun q => (q, f q)) k m =
      ks.map fun q => (q, f q ++ if q = k then [m] else []) := by
  induction ks with
  | nil => cases hk
  | cons a rest ih =>
    rw [List.map_cons, List.map_cons]
    by_cases ha : a = k
    · subst ha
      simp only [insertGrouped, if_true]
      have hnotin : a ∉ rest := (List.nodup_cons.mp hnd).1
      congr 1
      apply List.map_congr_left
      intro q hq
      rw [if_neg (fun h : q = a => hnotin (h ▸ hq))]
      simp
    · simp only [insertGrouped]
      rw [if_neg ha]
      have hk2 : k ∈ rest := by
        rcases List.mem_cons.mp hk with h | h
        · exact absurd h.symm ha
        · exact h
      rw [ih (List.nodup_cons.mp hnd).2 hk2, if_neg ha]
      simp

theorem filter_groupKey_eq_nil (ms : List Mark) (k : String)
    (h : k ∉ ms.map groupKey) :
    ms.filter (fun m => groupKey m == k) = [] := by
  rw [List.filter_eq_nil_iff]
  intro m hm
  simp only [beq_iff_eq]
  intro hk
  exact h (hk ▸ List.mem_map_of_mem groupKey hm)

theorem groupMarks_append_one (ms : List Mark) (m : Mark) :
    groupMarks (ms ++ [m]) = insertGrouped (groupMarks ms) (groupKey m) m := by
  unfold groupMarks
  rw [List.foldl_append]
  rfl

/-- C8: report generation partitions the marks by the composite key
"Class {class} - Section {section}": the group keys appear in
first-encountered order of the input sequence (insertion order, not sorted),
and the contents of each group are exactly the input marks carrying that key, in
input order — so every mark lands in precisely the group matching its class
and section. -/
theorem groupMarks_partition (ms : List Mark) :
    groupMarks ms = (dedupFirst (ms.map groupKey)).map
      (fun k => (k, ms.filter fun m => groupKey m == k)) := by
  induction ms using List.reverseRecOn with
  | nil => rfl
  | append_singleton ms m ih =>
    rw [groupMarks_append_one, ih, List.map_append, List.map_singleton,
      dedupFirst_append_one]
    by_cases hmem : groupKey m ∈ dedupFirst (ms.map groupKey)
    · rw [if_pos hmem]
      rw [insertGrouped_map_keys _ _ _ _ (nodup_dedupFirst _) hmem]
      apply List.map_congr_left
      intro k _
      rw [List.filter_append, List.filter_singleton]
      by_cases hkm : k = groupKey m
      · subst hkm
        simp
      · have hb : (groupKey m == k) = false := by
          simp only [beq_eq_false_iff_ne, ne_eq]
          exact fun h => hkm h.symm
        rw [hb, Bool.cond_false, if_neg hkm]
    · rw [if_neg hmem]
      rw [insertGrouped_of_not_mem _ _ _
        (by simpa [List.map_map, Function.comp] using hmem)]
      rw [List.map_append]
      congr 1
      · apply List.map_congr_left
        intro k hk
        rw [List.filter_append, List.filter_singleton]
        have hb : (groupKey m == k) = false := by
          simp only [beq_eq_false_iff_ne, ne_eq]
          exact fun h => hmem (h ▸ hk)
        rw [hb, Bool.cond_false]
        simp
      · have hnotin : groupKey m ∉ ms.map groupKey :=
          fun hin => hmem ((mem_dedupFirst _ _).mpr hin)
        rw [List.map_singleton, List.filter_append,
          filter_groupKey_eq_nil ms (groupKey m) hnotin, List.filter_singleton]
        simp

end Portal
